import Mathlib

/-!
Verification development for the grammar-correction core of the EduLingua
backend.  The Python sources under backend/core are shallowly embedded:
strings are lists of characters, Python dictionaries with optional keys
become structures with Option fields, and the external collaborators
(the OpenAI-compatible completion service, the optional T5 pipelines, the
optional spaCy parser, the TextBlob spell corrector, the optional
LanguageTool checker and the NLTK part-of-speech tagger) are oracle
parameters collected in a Config record.  The NLTK tokenizers
(sent_tokenize, word_tokenize) are modelled as Lean functions that follow
their documented behaviour on plain English text: sentences split after
terminal punctuation followed by whitespace, words split into maximal
runs of word characters with every other non-space character a token of
its own.  Character classes are modelled over ASCII, matching the inputs
the repository exercises.
-/

/-- Strings are modelled as lists of characters. -/
abbrev Str : Type := List Char

/-- Build a character list from a literal.  The section character stands
for the ASCII apostrophe (codepoint 39) so that source strings can carry
apostrophes. -/
def chars (s : String) : Str :=
  s.data.map (fun c => if c = '§' then Char.ofNat 39 else c)

/-- Whitespace test, modelling the Python regex class backslash-s on the
ASCII range (space, tab, newline, carriage return). -/
def isWs (c : Char) : Bool :=
  c = ' ' || c = '\t' || c = '\n' || c = '\r'

/-- The 26 lowercase/uppercase ASCII letter pairs. -/
def letterPairs : List (Char × Char) :=
  [('a', 'A'), ('b', 'B'), ('c', 'C'), ('d', 'D'), ('e', 'E'), ('f', 'F'),
   ('g', 'G'), ('h', 'H'), ('i', 'I'), ('j', 'J'), ('k', 'K'), ('l', 'L'),
   ('m', 'M'), ('n', 'N'), ('o', 'O'), ('p', 'P'), ('q', 'Q'), ('r', 'R'),
   ('s', 'S'), ('t', 'T'), ('u', 'U'), ('v', 'V'), ('w', 'W'), ('x', 'X'),
   ('y', 'Y'), ('z', 'Z')]

/-- Python char.islower for ASCII letters. -/
def pyIsLower (c : Char) : Bool := letterPairs.any (fun p => p.1 = c)

/-- Python char.isupper for ASCII letters. -/
def pyIsUpper (c : Char) : Bool := letterPairs.any (fun p => p.2 = c)

/-- Python char.upper for ASCII letters, identity elsewhere. -/
def pyUpperChar (c : Char) : Char :=
  ((letterPairs.find? (fun p => p.1 = c)).map (fun p => p.2)).getD c

/-- Python char.lower for ASCII letters, identity elsewhere. -/
def pyLowerChar (c : Char) : Char :=
  ((letterPairs.find? (fun p => p.2 = c)).map (fun p => p.1)).getD c

/-- Python str.lower over the ASCII model. -/
def pyLower (s : Str) : Str := s.map pyLowerChar

/-- Python str.upper over the ASCII model. -/
def pyUpper (s : Str) : Str := s.map pyUpperChar

/-- ASCII decimal digit test. -/
def isDigitChar (c : Char) : Bool := '0' ≤ c && c ≤ '9'

/-- Word character in the sense of the regex class backslash-w, ASCII
model: letters, digits and the underscore. -/
def isWordChar (c : Char) : Bool :=
  pyIsLower c || pyIsUpper c || isDigitChar c || c = '_'

/-- Python str.strip: drop whitespace from both ends. -/
def pyStrip (s : Str) : Str :=
  (s.dropWhile isWs).rdropWhile isWs

/-- First index at which the pattern occurs as a contiguous sublist. -/
def firstOcc (t pat : Str) : Option Nat :=
  if pat <+: t then some 0
  else
    match t with
    | [] => none
    | _ :: t2 => (firstOcc t2 pat).map (· + 1)

/-- Python membership test needle in haystack for strings. -/
def occursIn (pat t : Str) : Bool := (firstOcc t pat).isSome

/-- Python str.replace with count 1: replace the first occurrence. -/
def replaceFirst (t pat new : Str) : Str :=
  if pat <+: t then new ++ t.drop pat.length
  else
    match t with
    | [] => []
    | c :: t2 => c :: replaceFirst t2 pat new

/-- Python str.replace without a count: replace every occurrence,
scanning left to right and never rescanning replacement text. -/
def replaceAll (fuel : Nat) (t pat new : Str) : Str :=
  match fuel with
  | 0 => t
  | fuel + 1 =>
    if pat ≠ [] ∧ pat <+: t then new ++ replaceAll fuel (t.drop pat.length) pat new
    else
      match t with
      | [] => []
      | c :: t2 => c :: replaceAll fuel t2 pat new

/-- Entry point for replaceAll with enough fuel to finish. -/
def pyReplaceAll (t pat new : Str) : Str := replaceAll (t.length + 1) t pat new

/-- Python str.find: first index of the needle or minus one. -/
def pyFind (t pat : Str) : Int :=
  match firstOcc t pat with
  | some k => (k : Int)
  | none => -1

/-- Python str.split without arguments: split on whitespace runs,
dropping empty chunks. -/
def pySplitWs (s : Str) : List Str :=
  match s with
  | [] => []
  | c :: s2 =>
    if isWs c then pySplitWs s2
    else
      match pySplitWs s2 with
      | [] => [[c]]
      | w :: ws =>
        match s2 with
        | [] => [[c]]
        | d :: _ => if isWs d then [c] :: w :: ws else (c :: w) :: ws

/-- Python str.startswith. -/
def pyStartsWith (s pre : Str) : Bool := decide (pre <+: s)

/-- Python str.endswith. -/
def pyEndsWith (s suf : Str) : Bool := decide (suf <:+ s)

/-- Capitalize only the first character, the sentence-initial fix used
throughout the sources (sentence index zero upper plus the rest). -/
def capFirst (s : Str) : Str :=
  match s with
  | [] => []
  | c :: t => pyUpperChar c :: t

/-- Python str.capitalize: first character uppercase, the rest
lowercase. -/
def pyCapitalize (s : Str) : Str :=
  match s with
  | [] => []
  | c :: t => pyUpperChar c :: pyLower t

/-- Terminal punctuation class used by the sources. -/
def isTerminalPunct (c : Char) : Bool := c = '.' || c = '!' || c = '?'

/-- Last character of a string, if any. -/
def lastChar (s : Str) : Option Char := s.getLast?

/-- Model of nltk.sent_tokenize on plain text: a sentence ends at a
terminal punctuation character followed by whitespace or the end of the
text; whitespace between sentences is dropped.  Structural recursion on
fuel so the kernel can evaluate it; each step consumes at least one
character, so the initial fuel always suffices. -/
def sentTokenizeGo (fuel : Nat) (cur t : Str) : List Str :=
  match fuel, t with
  | _, [] => if cur = [] then [] else [cur]
  | 0, _ => if cur = [] then [] else [cur]
  | fuel + 1, c :: rest =>
    if isTerminalPunct c && (rest = [] || isWs (rest.headD ' ')) then
      (cur ++ [c]) :: sentTokenizeGo fuel [] (rest.dropWhile isWs)
    else
      sentTokenizeGo fuel (cur ++ [c]) rest

/-- Model of nltk.sent_tokenize, see sentTokenizeGo. -/
def sentTokenize (t : Str) : List Str := sentTokenizeGo (t.length + 1) [] t

/-- Model of nltk.word_tokenize on plain text: maximal runs of word
characters are tokens, every other non-whitespace character is a token
of its own; fuel as in sentTokenizeGo. -/
def wordTokenize (t : Str) : List Str := go (t.length + 1) t
where
  /-- Fuel-driven scanner of wordTokenize. -/
  go (fuel : Nat) (t : Str) : List Str :=
    match fuel, t with
    | _, [] => []
    | 0, _ => []
    | fuel + 1, c :: rest =>
      if isWs c then go fuel rest
      else if isWordChar c then
        (c :: rest.takeWhile isWordChar) :: go fuel (rest.dropWhile isWordChar)
      else
        [c] :: go fuel rest

/-- Count occurrences of a character, Python str.count for a single
character. -/
def countChar (s : Str) (c : Char) : Nat := (s.filter (fun d => d = c)).length

/-- Join a list of strings with a separator, Python str.join. -/
def pyJoin (sep : Str) : List Str → Str
  | [] => []
  | [s] => s
  | s :: rest => s ++ sep ++ pyJoin sep rest

/-- Error dictionary produced by the detectors.  Python dictionaries
carry varying key sets, so optional keys become Option fields; the
get-with-default accesses of the sources become getD. -/
structure SErr where
  ty : Str
  msg : Str
  severity : Str
  sentence : Option Str
  suggestion : Option Str
  start : Option Int
  stop : Option Int
  txt : Option Str
  correction : Option Str
deriving DecidableEq, Repr

/-- A change entry of a correction result. -/
structure Change where
  ty : Str
  original : Str
  corrected : Str
  msg : Option Str
  errorsFixed : List Str
deriving DecidableEq, Repr

/-- Token of the optional spaCy dependency parse. -/
structure SpacyTok where
  text : Str
  pos : Str
  dep : Str
  idx : Nat
deriving DecidableEq, Repr

/-- A spaCy document is its token list. -/
abbrev SpacyDoc : Type := List SpacyTok

/-- Match record of the optional LanguageTool collaborator. -/
structure LTMatch where
  message : Str
  replacements : List Str
  context : Str
  offset : Int
  errorLength : Int
  ruleId : Str
  category : Str
deriving DecidableEq, Repr

/-- Environment of external collaborators and optional models.  aiResp
models ai_service.generate_ai_response as a function of the prompt
(none models both an unavailable service and a failed call); t5 is the
corrector pipeline of grammar_analysis; pipe is the grammar_pipeline of
grammar_corrector, each returning the generated text for a prompt; blob
is TextBlob(...).correct(); posTag is the NLTK tagger; nlp is the
optional spaCy model; lt is the optional LanguageTool checker. -/
structure Config where
  aiAvail : Bool
  aiResp : Str → Option Str
  t5 : Option (Str → Str)
  pipe : Option (Str → Str)
  blob : Str → Str
  posTag : List Str → List (Str × Str)
  nlp : Option (Str → SpacyDoc)
  lt : Option (Str → List LTMatch)

/-- Consume an exact literal. -/
def eatLit (pat t : Str) : Option Str :=
  if pat <+: t then some (t.drop pat.length) else none

/-- Consume at least one whitespace character, maximally (the regex
piece backslash-s plus). -/
def eatWs1 (t : Str) : Option Str :=
  match t with
  | [] => none
  | c :: r => if isWs c then some (r.dropWhile isWs) else none

/-- Consume at least one word character, maximally (the regex piece
backslash-w plus); returns the consumed group and the rest. -/
def eatWord1 (t : Str) : Option (Str × Str) :=
  match t with
  | [] => none
  | c :: r =>
    if isWordChar c then some (c :: r.takeWhile isWordChar, r.dropWhile isWordChar)
    else none

/-- Regex caret i backslash-s plus, group of word characters,
whitespace, literal name; a prefix match without end anchor. -/
def m_i_w_name (low : Str) : Option Str := do
  let r ← eatLit (chars ("i")) low
  let r ← eatWs1 r
  let (w, r) ← eatWord1 r
  let r ← eatWs1 r
  let _ ← eatLit (chars ("name")) r
  pure w

/-- Regex for a word, whitespace, literal name, end of string. -/
def m_w_name_end (low : Str) : Option Str := do
  let (w, r) ← eatWord1 low
  let r ← eatWs1 r
  let r ← eatLit (chars ("name")) r
  if r = [] then pure w else none

/-- Regex for literal name, whitespace, a word, end of string. -/
def m_name_w_end (low : Str) : Option Str := do
  let r ← eatLit (chars ("name")) low
  let r ← eatWs1 r
  let (w, r) ← eatWord1 r
  if r = [] then pure w else none

/-- Regex for literal name, whitespace, word, whitespace, literal i,
end of string. -/
def m_name_w_i_end (low : Str) : Option Str := do
  let r ← eatLit (chars ("name")) low
  let r ← eatWs1 r
  let (w, r) ← eatWord1 r
  let r ← eatWs1 r
  let r ← eatLit (chars ("i")) r
  if r = [] then pure w else none

/-- Regex for a word, whitespace, literal name, whitespace, literal i,
end of string. -/
def m_w_name_i_end (low : Str) : Option Str := do
  let (w, r) ← eatWord1 low
  let r ← eatWs1 r
  let r ← eatLit (chars ("name")) r
  let r ← eatWs1 r
  let r ← eatLit (chars ("i")) r
  if r = [] then pure w else none

/-- Regex for a word, whitespace, literal am, whitespace, literal i,
end of string. -/
def m_w_am_i_end (low : Str) : Option Str := do
  let (w, r) ← eatWord1 low
  let r ← eatWs1 r
  let r ← eatLit (chars ("am")) r
  let r ← eatWs1 r
  let r ← eatLit (chars ("i")) r
  if r = [] then pure w else none

/-- Regex for literal i, whitespace, literal am, whitespace, a word,
end of string. -/
def m_i_am_w_end (low : Str) : Option Str := do
  let r ← eatLit (chars ("i")) low
  let r ← eatWs1 r
  let r ← eatLit (chars ("am")) r
  let r ← eatWs1 r
  let (w, r) ← eatWord1 r
  if r = [] then pure w else none

/-- The determiner alternation of the subject-is pattern in source
order. -/
def detList : List Str :=
  [chars ("the"), chars ("a"), chars ("an"), chars ("this"), chars ("that"),
   chars ("my"), chars ("your"), chars ("his"), chars ("her"), chars ("its"),
   chars ("our"), chars ("their")]

/-- Regex for a determiner alternation, word, literal is, word, end of
string; returns the final word group. -/
def m_det_w_is_w_end (low : Str) : Option Str :=
  detList.findSome? (fun d => do
    let r ← eatLit d low
    let r ← eatWs1 r
    let (_, r) ← eatWord1 r
    let r ← eatWs1 r
    let r ← eatLit (chars ("is")) r
    let r ← eatWs1 r
    let (w2, r) ← eatWord1 r
    if r = [] then pure w2 else none)

/-- Regex for literal i, whitespace, a catenative verb literal,
whitespace, one word and optionally a second, end of string. -/
def m_caten (verb low : Str) : Option (Str × Option Str) := do
  let r ← eatLit (chars ("i")) low
  let r ← eatWs1 r
  let r ← eatLit verb r
  let r ← eatWs1 r
  let (w1, r) ← eatWord1 r
  if r = [] then pure (w1, none)
  else do
    let r ← eatWs1 r
    let (w2, r) ← eatWord1 r
    if r = [] then pure (w1, some w2) else none

/-- The one-word i like pattern. -/
def m_i_like_1 (low : Str) : Option Str := do
  let r ← eatLit (chars ("i")) low
  let r ← eatWs1 r
  let r ← eatLit (chars ("like")) r
  let r ← eatWs1 r
  let (w, r) ← eatWord1 r
  if r = [] then pure w else none

/-- The two-word i like pattern. -/
def m_i_like_2 (low : Str) : Option (Str × Str) := do
  let r ← eatLit (chars ("i")) low
  let r ← eatWs1 r
  let r ← eatLit (chars ("like")) r
  let r ← eatWs1 r
  let (w1, r) ← eatWord1 r
  let r ← eatWs1 r
  let (w2, r) ← eatWord1 r
  if r = [] then pure (w1, w2) else none

/-- One-word catenative pattern for a given verb: caret i, whitespace,
the verb, whitespace, one word, end. -/
def m_caten1 (verb low : Str) : Option Str := do
  let r ← eatLit (chars ("i")) low
  let r ← eatWs1 r
  let r ← eatLit verb r
  let r ← eatWs1 r
  let (w, r) ← eatWord1 r
  if r = [] then pure w else none

/-- Two-word catenative pattern for a given verb. -/
def m_caten2 (verb low : Str) : Option (Str × Str) := do
  let r ← eatLit (chars ("i")) low
  let r ← eatWs1 r
  let r ← eatLit verb r
  let r ← eatWs1 r
  let (w1, r) ← eatWord1 r
  let r ← eatWs1 r
  let (w2, r) ← eatWord1 r
  if r = [] then pure (w1, w2) else none

/-- Subject pronouns checked before the missing-verb rule. -/
def pronounSubjects : List Str :=
  [chars ("i"), chars ("you"), chars ("he"), chars ("she"), chars ("it"),
   chars ("we"), chars ("they")]

/-- Verbs accepted directly after a subject pronoun. -/
def auxVerbs : List Str :=
  [chars ("am"), chars ("is"), chars ("are"), chars ("was"), chars ("were"),
   chars ("have"), chars ("has"), chars ("had"), chars ("will"), chars ("can"),
   chars ("should"), chars ("would"), chars ("could")]

/-- Nouns excluded from the i-am-noun article rule. -/
def amNounExceptions : List Str :=
  [chars ("ok"), chars ("fine"), chars ("good"), chars ("well"),
   chars ("here"), chars ("there")]

/-- Nouns excluded from the determiner-noun-is rule. -/
def detNounExceptions : List Str :=
  [chars ("good"), chars ("bad"), chars ("fine"), chars ("ok"),
   chars ("here"), chars ("there"), chars ("mine"), chars ("yours")]

/-- Objects excluded from the one-word i-like rule. -/
def likeObjectExceptions : List Str :=
  [chars ("it"), chars ("this"), chars ("that"), chars ("you"), chars ("him"),
   chars ("her"), chars ("them"), chars ("music"), chars ("food")]

/-- The fixed catenative-verb list of the sources. -/
def infinitiveVerbs : List Str :=
  [chars ("like"), chars ("want"), chars ("need"), chars ("try"),
   chars ("start"), chars ("begin"), chars ("love"), chars ("hate"),
   chars ("prefer"), chars ("decide"), chars ("plan"), chars ("hope"),
   chars ("expect")]

/-- Common verbs recognised after a catenative verb. -/
def commonVerbs : List Str :=
  [chars ("play"), chars ("read"), chars ("write"), chars ("go"),
   chars ("come"), chars ("see"), chars ("watch"), chars ("eat"),
   chars ("drink"), chars ("buy"), chars ("sell"), chars ("make"),
   chars ("do"), chars ("take"), chars ("give"), chars ("get"),
   chars ("have"), chars ("learn"), chars ("study"), chars ("work")]

/-- Words excluded as first word after a catenative verb. -/
def catenExceptions : List Str :=
  [chars ("the"), chars ("a"), chars ("an"), chars ("my"), chars ("your"),
   chars ("this"), chars ("that"), chars ("it"), chars ("music"),
   chars ("food"), chars ("books")]

/-- ASCII vowel test used by the article heuristics. -/
def isVowel (c : Char) : Bool :=
  c = 'a' || c = 'e' || c = 'i' || c = 'o' || c = 'u'

/-- Structure error with a sentence and a suggestion, the shape built by
the structural detectors. -/
def errSS (ty msg sev sent sugg : Str) : SErr :=
  ⟨ty, msg, sev, some sent, some sugg, none, none, none, none⟩

/-- detect_structure_errors_rulebased of sentence_structure: the regex
fallback detector used when no spaCy model is loaded.  Errors are
appended in source order. -/
def detect_structure_errors_rulebased (sentence : Str) : List SErr :=
  let low := pyLower sentence
  let words := wordTokenize low
  let eFrag :=
    if words.length < 3 then
      [errSS (chars ("sentence_fragment")) (chars ("Sentence appears incomplete"))
        (chars ("high")) sentence (chars ("Complete the sentence with a subject and verb"))]
    else []
  let eIWName :=
    if (m_i_w_name low).isSome then
      [errSS (chars ("word_order"))
        (chars ("Incorrect sentence structure. Use §My name is [name]§ format"))
        (chars ("high")) sentence (chars ("My name is [name]"))]
    else []
  let eWName :=
    if (m_w_name_end low).isSome ∧ words.length = 2 then
      [errSS (chars ("missing_words"))
        (chars ("Missing words. Use §My name is [name]§ format"))
        (chars ("high")) sentence (chars ("My name is ") ++ pyCapitalize (words.headD []))]
    else []
  let eNameW :=
    if (m_name_w_end low).isSome ∧ words.length = 2 then
      [errSS (chars ("word_order"))
        (chars ("Incorrect word order. Use §My name is [name]§ format"))
        (chars ("high")) sentence (chars ("My name is ") ++ pyCapitalize (words.getD 1 []))]
    else []
  let eNameI :=
    if (m_name_w_i_end low).isSome ∨ (m_w_name_i_end low).isSome then
      match (pySplitWs low).find? (fun p => p ≠ chars ("name") ∧ p ≠ chars ("i")) with
      | some name =>
        [errSS (chars ("word_order"))
          (chars ("Incorrect word order. Use §My name is [name]§ format"))
          (chars ("high")) sentence (chars ("My name is ") ++ pyCapitalize name)]
      | none => []
    else []
  let eAmI :=
    if (m_w_am_i_end low).isSome then
      let name := (pySplitWs low).headD []
      if name ≠ [] ∧ name ∉ [chars ("i"), chars ("am")] then
        [errSS (chars ("word_order"))
          (chars ("Incorrect word order. Use §My name is [name]§ or §I am [name]§ format"))
          (chars ("high")) sentence (chars ("My name is ") ++ pyCapitalize name)]
      else []
    else []
  let eMissVerb :=
    if words.headD [] ∈ pronounSubjects ∧ words.length > 1
        ∧ words.getD 1 [] ∉ auxVerbs ∧ words.length > 2 then
      [errSS (chars ("missing_verb")) (chars ("Missing verb after subject"))
        (chars ("medium")) sentence
        (chars ("Add a verb like §is§, §am§, §are§, §have§, etc."))]
    else []
  let eIAmNoun :=
    match m_i_am_w_end low with
    | some noun =>
      if pyIsLower (noun.headD ' ') ∧ noun ∉ amNounExceptions then
        [errSS (chars ("missing_article"))
          (chars ("Missing article §a§ or §an§ before the noun"))
          (chars ("medium")) sentence
          (if ¬ isVowel (pyLowerChar (noun.headD ' '))
            then chars ("I am a ") ++ noun else chars ("I am an ") ++ noun)]
      else []
    | none => []
  let eDetNoun :=
    match m_det_w_is_w_end low with
    | some noun =>
      if pyIsLower (noun.headD ' ') ∧ noun ∉ detNounExceptions then
        [errSS (chars ("missing_article_or_preposition"))
          (chars ("Consider adding §a/an§ or a preposition like §on§, §in§, §at§"))
          (chars ("low")) sentence
          (if ¬ isVowel (pyLowerChar (noun.headD ' '))
            then sentence ++ chars (" a ") ++ noun
            else sentence ++ chars (" an ") ++ noun)]
      else []
    | none => []
  let eILike :=
    if ¬ (m_i_like_2 low).isSome then
      match m_i_like_1 low with
      | some verb =>
        if verb ∉ likeObjectExceptions then
          [errSS (chars ("missing_infinitive"))
            (chars ("Missing §to§ before verb or use §-ing§ form"))
            (chars ("medium")) sentence (chars ("I like to ") ++ verb)]
        else []
      | none => []
    else []
  let eCaten := detectCatenLoop sentence low infinitiveVerbs
  eFrag ++ eIWName ++ eWName ++ eNameW ++ eNameI ++ eAmI ++ eMissVerb
    ++ eIAmNoun ++ eDetNoun ++ eILike ++ eCaten
where
  /-- The catenative-verb loop: the first verb whose pattern matches and
  whose first word passes the filter yields one error and stops. -/
  detectCatenLoop (sentence low : Str) : List Str → List SErr
  | [] => []
  | v :: rest =>
    match m_caten v low with
    | some (w1, w2opt) =>
      if w1 ∈ commonVerbs ∨ w1 ∉ catenExceptions then
        match w2opt with
        | some w2 =>
          [errSS (chars ("missing_infinitive"))
            (chars ("Missing §to§ before verb after §") ++ v ++ chars ("§"))
            (chars ("medium")) sentence
            (chars ("I ") ++ v ++ chars (" to ") ++ w1 ++ chars (" ") ++ w2)]
        | none =>
          [errSS (chars ("missing_infinitive"))
            (chars ("Missing §to§ before verb after §") ++ v ++ chars ("§"))
            (chars ("medium")) sentence
            (chars ("I ") ++ v ++ chars (" to ") ++ w1)]
      else detectCatenLoop sentence low rest
    | none => detectCatenLoop sentence low rest

/-- Prefix test of a pattern at an index. -/
def sliceEq (t : Str) (i : Nat) (pat : Str) : Bool := decide (pat <+: t.drop i)

/-- Word boundary before index i. -/
def boundaryBefore (t : Str) (i : Nat) : Bool :=
  i = 0 || ¬ isWordChar (t.getD (i - 1) ' ')

/-- Word boundary at index j (after a match ending there). -/
def boundaryAt (t : Str) (j : Nat) : Bool :=
  t.length ≤ j || ¬ isWordChar (t.getD j ' ')

/-- Dummy spaCy token for safe indexing. -/
def dummyTok : SpacyTok := ⟨[], [], [], 0⟩

/-- detect_word_order_errors of sentence_structure: scans the parse for
the token i followed two tokens later by name. -/
def detect_word_order_errors (doc : SpacyDoc) (sentence : Str) : List SErr :=
  (doc.enum.filterMap (fun p =>
    let i := p.1
    let tok := p.2
    if pyLower tok.text = chars ("i") ∧ i + 2 < doc.length
        ∧ pyLower (doc.getD (i + 2) dummyTok).text = chars ("name") then
      let t1 := (doc.getD (i + 1) dummyTok).text
      let t2 := (doc.getD (i + 2) dummyTok).text
      some ⟨chars ("word_order"),
        chars ("Incorrect word order. Use §My name is [name]§"),
        chars ("high"), some sentence,
        some (chars ("My name is ") ++ t1),
        some (tok.idx : Int),
        some (((doc.getD (i + 2) dummyTok).idx + t2.length : Nat) : Int),
        some (tok.text ++ chars (" ") ++ t1 ++ chars (" ") ++ t2), none⟩
    else none))

/-- Possessives accepted before a noun by the spaCy article rule. -/
def articleWords : List Str :=
  [chars ("a"), chars ("an"), chars ("the"), chars ("my"), chars ("your"),
   chars ("his"), chars ("her"), chars ("its"), chars ("our"), chars ("their")]

/-- detect_missing_articles of sentence_structure over the spaCy
parse. -/
def detect_missing_articles (doc : SpacyDoc) (sentence : Str) : List SErr :=
  (doc.enum.filterMap (fun p =>
    let i := p.1
    let tok := p.2
    if tok.pos = chars ("NOUN") ∧ ¬ pyIsUpper (tok.text.headD ' ') then
      if i > 0 then
        let prev := doc.getD (i - 1) dummyTok
        if prev.pos ∉ [chars ("DET"), chars ("ADJ")] ∧ pyLower prev.text ∉ articleWords then
          if i = 0 ∨ (i > 0 ∧ prev.pos ∉ [chars ("VERB"), chars ("ADP")]) then
            some ⟨chars ("missing_article"),
              chars ("Consider adding an article (a/an/the) before §") ++ tok.text ++ chars ("§"),
              chars ("low"), some sentence,
              some (if ¬ isVowel (pyLowerChar (tok.text.headD ' '))
                then chars ("the ") ++ tok.text else chars ("an ") ++ tok.text),
              some (tok.idx : Int), some ((tok.idx + tok.text.length : Nat) : Int),
              some tok.text, none⟩
          else none
        else none
      else none
    else none))

/-- The collocation table of detect_missing_prepositions: alternation,
preposition label, preposition used in the presence check and the
suggestion. -/
def prepPatterns : List (List Str × Str × Str) :=
  [([chars ("interested"), chars ("good"), chars ("bad")], chars ("in"), chars ("in")),
   ([chars ("depends"), chars ("rely")], chars ("on"), chars ("on")),
   ([chars ("listen"), chars ("look")], chars ("to/at"), chars ("to"))]

/-- Match one alternation member at a position with a leading word
boundary; returns its length. -/
def altAt (alts : List Str) (t : Str) (i : Nat) (needAfter : Bool) : Option Nat :=
  alts.findSome? (fun a =>
    if sliceEq t i a ∧ boundaryBefore t i ∧ (¬ needAfter ∨ boundaryAt t (i + a.length)) then
      some a.length
    else none)

/-- Scan for alternation, whitespace run, word group, in the style of
re.finditer: leftmost matches, continuing after each match.  Returns
(start, stop, group1, group2) quadruples over the scanned string. -/
def prepScanGo (alts : List Str) (low : Str) (fuel i : Nat) : List (Nat × Nat × Str × Str) :=
  match fuel with
  | 0 => []
  | fuel + 1 =>
    if low.length ≤ i then []
    else
      match altAt alts low i false with
      | some len =>
        let rest := low.drop (i + len)
        let wsN := (rest.takeWhile isWs).length
        let w := (rest.drop wsN).takeWhile isWordChar
        if wsN ≥ 1 ∧ w ≠ [] then
          (i, i + len + wsN + w.length, (low.drop i).take len, w)
            :: prepScanGo alts low fuel (i + len + wsN + w.length)
        else prepScanGo alts low fuel (i + 1)
      | none => prepScanGo alts low fuel (i + 1)

/-- Presence check of the expected preposition followed by the word
(the inner re.search of detect_missing_prepositions). -/
def searchPrepWord (prep0 wa low : Str) : Bool :=
  (List.range (low.length + 1)).any (fun i =>
    boundaryBefore low i ∧ sliceEq low i prep0 ∧
      (let rest := low.drop (i + prep0.length)
       let wsN := (rest.takeWhile isWs).length
       wsN ≥ 1 ∧ wa <+: rest.drop wsN))

/-- detect_missing_prepositions of sentence_structure; regex-based, the
parse argument of the source is unused. -/
def detect_missing_prepositions (sentence : Str) : List SErr :=
  let low := pyLower sentence
  prepPatterns.flatMap (fun pat =>
    let (alts, prepLabel, prep0) := pat
    (prepScanGo alts low (low.length + 1) 0).filterMap (fun m =>
      let (st, en, g1, g2) := m
      if ¬ searchPrepWord prep0 g2 low then
        some ⟨chars ("missing_preposition"),
          chars ("Missing preposition §") ++ prepLabel ++ chars ("§ after §") ++ g1 ++ chars ("§"),
          chars ("medium"), some sentence,
          some (g1 ++ chars (" ") ++ prep0 ++ chars (" ") ++ g2),
          some (st : Int), some (en : Int),
          some ((low.drop st).take (en - st)), none⟩
      else none))

/-- detect_structure_errors_spacy of sentence_structure: dependency
roles decide subject and verb presence; the object flag of the source
is computed but never used. -/
def detect_structure_errors_spacy (doc : SpacyDoc) (sentence : Str) : List SErr :=
  let hasSubject := doc.any (fun t => t.dep = chars ("nsubj") ∨ t.dep = chars ("nsubjpass"))
  let hasVerb := doc.any (fun t => t.dep = chars ("ROOT") ∧ t.pos = chars ("VERB"))
  let eSubj :=
    if ¬ hasSubject ∧ hasVerb
        ∧ ¬ doc.any (fun t => pyLower t.text ∈ [chars ("please"), chars ("let"), chars ("make")]) then
      [errSS (chars ("missing_subject")) (chars ("Sentence is missing a subject"))
        (chars ("high")) sentence
        (chars ("Add a subject (I, You, He, She, It, We, They, or a noun)"))]
    else []
  let eVerb :=
    if hasSubject ∧ ¬ hasVerb then
      [errSS (chars ("missing_verb")) (chars ("Sentence is missing a verb"))
        (chars ("high")) sentence (chars ("Add a verb to complete the sentence"))]
    else []
  eSubj ++ eVerb ++ detect_word_order_errors doc sentence
    ++ detect_missing_articles doc sentence ++ detect_missing_prepositions sentence

/-- Stable insertion for the descending-by-start sort: a new element
goes before the first strictly smaller key and after equal keys seen
later, which matches the stability of Python sorted with reverse. -/
def insErrDesc (e : SErr) : List SErr → List SErr
  | [] => [e]
  | f :: fs =>
    if (f.start.getD 0) ≤ (e.start.getD 0) then e :: f :: fs
    else f :: insErrDesc e fs

/-- Python sorted by start descending (stable), with the get-default
zero of the sources for errors without a position. -/
def sortByStartDesc : List SErr → List SErr
  | [] => []
  | e :: es => insErrDesc e (sortByStartDesc es)

/-- The catenative fix loop shared by generate_structure_correction and
the intelligent block of correct_sentence_structure: first verb whose
two-word pattern matches wins, then the one-word pattern. -/
def catenFix (s : Str) : Option Str :=
  infinitiveVerbs.findSome? (fun v =>
    match m_caten2 v (pyLower s) with
    | some (w1, w2) =>
      some (chars ("I ") ++ v ++ chars (" to ") ++ w1 ++ chars (" ")
        ++ pyCapitalize w2 ++ chars ("."))
    | none =>
      (m_caten1 v (pyLower s)).map (fun w1 =>
        chars ("I ") ++ v ++ chars (" to ") ++ pyCapitalize w1 ++ chars (".")))

/-- The per-error loop of generate_structure_correction with its break
semantics: a branch either returns a final value (break) or continues
with an updated working string.  The duplicated word_order and
missing_article arms of the source elif chain are dead and omitted. -/
def gscLoop (sentence corrected : Str) : List SErr → Str
  | [] => corrected
  | e :: rest =>
    let low := pyLower sentence
    let sugg := e.suggestion.getD []
    if e.ty = chars ("word_order") then
      match m_i_w_name low with
      | some name => chars ("My name is ") ++ pyCapitalize name ++ chars (".")
      | none =>
        if (m_name_w_i_end low).isSome then
          match (pySplitWs low).find? (fun p => p ≠ chars ("name") ∧ p ≠ chars ("i")) with
          | some name => chars ("My name is ") ++ pyCapitalize name ++ chars (".")
          | none => gscLoop sentence corrected rest
        else if sugg ≠ [] ∧ occursIn (chars ("My name is")) sugg then
          if ¬ pyEndsWith sugg (chars (".")) then sugg ++ chars (".") else sugg
        else gscLoop sentence corrected rest
    else if e.ty = chars ("missing_words") then
      match m_w_name_end low with
      | some name => chars ("My name is ") ++ pyCapitalize name ++ chars (".")
      | none => gscLoop sentence corrected rest
    else if e.ty = chars ("missing_subject") then
      if sugg ≠ [] then
        let c2 :=
          if pyIsLower (corrected.headD ' ') then
            pyCapitalize ((pySplitWs sugg).headD []) ++ chars (" ") ++ corrected
          else sugg ++ chars (" ") ++ corrected
        gscLoop sentence c2 rest
      else gscLoop sentence corrected rest
    else if e.ty = chars ("missing_verb") then
      if occursIn (chars ("name")) low then
        let c2 :=
          if occursIn (chars ("my")) low ∨ occursIn (chars ("i")) low then
            pyReplaceAll sentence (chars ("name")) (chars ("name is"))
          else if pySplitWs sentence ≠ [] then
            chars ("My name is ") ++ (pySplitWs sentence).getLastD []
          else sentence
        gscLoop sentence c2 rest
      else gscLoop sentence corrected rest
    else if e.ty = chars ("missing_article") then
      if occursIn (chars ("i am")) low then
        match m_i_am_w_end low with
        | some noun =>
          chars ("I am ")
            ++ (if ¬ isVowel (pyLowerChar (noun.headD ' ')) then chars ("a ") else chars ("an "))
            ++ pyCapitalize noun ++ chars (".")
        | none => gscLoop sentence corrected rest
      else gscLoop sentence corrected rest
    else if e.ty = chars ("missing_infinitive") then
      if sugg ≠ [] then sugg
      else gscLoop sentence ((catenFix sentence).getD corrected) rest
    else gscLoop sentence corrected rest

/-- generate_structure_correction of sentence_structure. -/
def generate_structure_correction (cfg : Config) (sentence : Str) (errors : List SErr) : Str :=
  let sentence_errors := sortByStartDesc (errors.filter (fun e => e.sentence = some sentence))
  let corrected := gscLoop sentence sentence sentence_errors
  let corrected :=
    if corrected = sentence then
      let b := cfg.blob sentence
      if b ≠ sentence then b else corrected
    else corrected
  if corrected ≠ [] then
    let c := pyStrip corrected
    let c := if c ≠ [] ∧ ¬ pyIsUpper (c.headD ' ') then capFirst c else c
    if c ≠ [] ∧ ¬ isTerminalPunct (c.getLastD ' ') then c ++ chars (".") else c
  else corrected

/-- A correction entry of analyze_sentence_structure. -/
structure Corr where
  original : Str
  corrected : Str
  errs : List Str
deriving DecidableEq, Repr

/-- Result of analyze_sentence_structure. -/
structure SSAnalysis where
  errors : List SErr
  corrections : List Corr
deriving DecidableEq, Repr

/-- analyze_sentence_structure of sentence_structure: per stripped
sentence, detect (spaCy path when a model is loaded, regex fallback
otherwise); whenever the accumulated error list is non-empty a
correction is generated against it. -/
def analyze_sentence_structure (cfg : Config) (text : Str) : SSAnalysis :=
  if pyStrip text = [] then ⟨[], []⟩
  else
    let step := fun (st : List SErr × List Corr) (s : Str) =>
      let s2 := pyStrip s
      if s2 = [] then st
      else
        let newErrs :=
          match cfg.nlp with
          | some f => detect_structure_errors_spacy (f s2) s2
          | none => detect_structure_errors_rulebased s2
        let errors := st.1 ++ newErrs
        if errors ≠ [] then
          let correction := generate_structure_correction cfg s2 errors
          if correction ≠ [] ∧ correction ≠ s2 then
            (errors, st.2 ++ [⟨s2, correction,
              (errors.filter (fun e => e.sentence = some s2)).map (fun e => e.ty)⟩])
          else (errors, st.2)
        else (errors, st.2)
    let res := (sentTokenize text).foldl step ([], [])
    ⟨res.1, res.2⟩

/-- Result of correct_sentence_structure.  The empty-input return of the
source carries no errors_found and structure_errors keys; callers read
them through get with defaults, which the zero and nil fields model. -/
structure SSResult where
  original : Str
  corrected : Str
  changes : List Change
  errorsFound : Nat
  structureErrors : List SErr
deriving DecidableEq, Repr

/-- A structure_correction change entry. -/
def structChange (original corrected : Str) (fixed : List Str) : Change :=
  ⟨chars ("structure_correction"), original, corrected, none, fixed⟩

/-- The intelligent-correction block of correct_sentence_structure,
entered when no sentence correction applied but errors exist; picks one
error by priority and fixes by its type.  The missing-infinitive arm of
the inner elif chain is dead there (the outer branch already caught
that type) and is omitted like the other dead arms. -/
def intelligent_correction (text : Str) (errors : List SErr) : Str × List Change :=
  let mi := chars ("missing_infinitive")
  let wo := chars ("word_order")
  let mw := chars ("missing_words")
  let ma := chars ("missing_article")
  let infs := errors.filter (fun e => e.ty = mi)
  let wos := errors.filter (fun e => e.ty = wo ∨ e.ty = mw)
  let arts := errors.filter (fun e => e.ty = ma)
  let others := errors.filter (fun e =>
    (e.severity = chars ("high") ∨ e.severity = chars ("medium"))
      ∧ e.ty ∉ [mi, wo, mw, ma])
  let choice :=
    match infs.head? with
    | some e => some e
    | none =>
      match wos.head? with
      | some e => some e
      | none =>
        match arts.head? with
        | some e => some e
        | none => others.head?
  match choice with
  | none => (text, [])
  | some e =>
    let low := pyLower text
    let sugg := e.suggestion.getD []
    if e.ty = mi then
      match catenFix text with
      | some c2 => (c2, [structChange text c2 [mi]])
      | none =>
        if sugg ≠ [] then
          let c2 := if ¬ pyEndsWith sugg (chars (".")) then sugg ++ chars (".") else sugg
          (c2, [structChange text c2 [mi]])
        else (text, [])
    else if sugg ≠ [] then
      if (m_i_w_name low).isSome then
        match m_i_w_name low with
        | some name =>
          let c2 := chars ("My name is ") ++ pyCapitalize name ++ chars (".")
          (c2, [structChange text c2 [wo, mw]])
        | none => (text, [])
      else if (m_w_name_end low).isSome then
        match m_w_name_end low with
        | some name =>
          let c2 := chars ("My name is ") ++ pyCapitalize name ++ chars (".")
          (c2, [structChange text c2 [mw, wo]])
        | none => (text, [])
      else if (m_w_am_i_end low).isSome then
        match m_w_am_i_end low with
        | some name =>
          if pyLower name ∉ [chars ("i"), chars ("am")] then
            let c2 := chars ("My name is ") ++ pyCapitalize name ++ chars (".")
            (c2, [structChange text c2 [wo]])
          else (text, [])
        | none => (text, [])
      else if (m_name_w_i_end low).isSome ∨ (m_w_name_i_end low).isSome then
        match (pySplitWs low).find? (fun p => p ≠ chars ("name") ∧ p ≠ chars ("i")) with
        | some name =>
          let c2 := chars ("My name is ") ++ pyCapitalize name ++ chars (".")
          (c2, [structChange text c2 [wo, mw]])
        | none => (text, [])
      else if occursIn (chars ("My name is")) sugg then
        let c2 := if ¬ pyEndsWith sugg (chars (".")) then sugg ++ chars (".") else sugg
        (c2, [structChange text c2 [e.ty]])
      else if e.ty = ma ∧ occursIn (chars ("i am")) low then
        match m_i_am_w_end low with
        | some noun =>
          let c2 := chars ("I am ")
            ++ (if ¬ isVowel (pyLowerChar (noun.headD ' ')) then chars ("a ") else chars ("an "))
            ++ pyCapitalize noun ++ chars (".")
          (c2, [structChange text c2 [ma]])
        | none => (text, [])
      else if sugg ≠ text then
        (sugg, [structChange text sugg [e.ty]])
      else (text, [])
    else (text, [])

/-- correct_sentence_structure of sentence_structure: apply the
generated sentence corrections by first-occurrence replacement, then
the intelligent block when nothing applied but errors exist. -/
def correct_sentence_structure (cfg : Config) (text : Str) : SSResult :=
  if pyStrip text = [] then ⟨text, text, [], 0, []⟩
  else
    let analysis := analyze_sentence_structure cfg text
    let errors := analysis.errors
    let applyStep := fun (st : Str × List Change) (c : Corr) =>
      if occursIn c.original st.1 then
        (replaceFirst st.1 c.original c.corrected,
          st.2 ++ [structChange c.original c.corrected c.errs])
      else st
    let applied := analysis.corrections.foldl applyStep (text, [])
    if applied.1 = text ∧ errors ≠ [] then
      let fixed := intelligent_correction text errors
      ⟨text, fixed.1, applied.2 ++ fixed.2, errors.length, errors⟩
    else ⟨text, applied.1, applied.2, errors.length, errors⟩

/-- Result of correct_text in grammar_corrector: the returned
dictionaries carry exactly the original, corrected and method keys. -/
structure CTResult where
  original : Str
  corrected : Str
  method : Str
deriving DecidableEq, Repr

/-- correct_text of grammar_corrector: model stage first (the pipe
oracle stands for the loaded grammar pipeline; the manual
tokenizer-model branch of the source performs the same call and is
covered by the same oracle), then the rule-based sentence-structure
stage with formatting, then the unchanged fallback.  Exceptions of the
collaborators are modelled by the none oracle value.  This helper is the
model stage: the accepted stripped model output, if any. -/
def modelStage (cfg : Config) (ot : Str) (useModel : Bool) : Option Str :=
  if useModel then
    match cfg.pipe with
    | some f =>
      let o := f (chars ("grammar: ") ++ ot)
      if o ≠ [] ∧ o ≠ ot then some (pyStrip o) else none
    | none => none
  else none

/-- The formatting applied to the rule-based result of correct_text:
strip, capitalize the first letter, ensure terminal punctuation. -/
def ruleStageFormat (c0 : Str) : Str :=
  if c0 ≠ [] then
    let cs := pyStrip c0
    let cs2 := if cs ≠ [] ∧ ¬ pyIsUpper (cs.headD ' ') then capFirst cs else cs
    if cs2 ≠ [] ∧ ¬ isTerminalPunct (cs2.getLastD ' ') then cs2 ++ chars (".") else cs2
  else c0

/-- correct_text of grammar_corrector: empty input returned unchanged
with method none; the model stage commits any non-empty output that
differs from the stripped input; otherwise the rule-based
sentence-structure stage with formatting, or the unchanged fallback. -/
def correct_text (cfg : Config) (text : Str) (useModel : Bool) : CTResult :=
  if pyStrip text = [] then ⟨text, text, chars ("none")⟩
  else
    let ot := pyStrip text
    match modelStage cfg ot useModel with
    | some c => ⟨ot, c, chars ("t5_model")⟩
    | none =>
      let c1 := ruleStageFormat (correct_sentence_structure cfg ot).corrected
      if c1 ≠ [] ∧ c1 ≠ ot then ⟨ot, c1, chars ("rule_based")⟩
      else ⟨ot, ot, chars ("none")⟩

/-- Common-mistake table entry: pair patterns demand two occurrences
joined by a dot-star, single patterns one occurrence. -/
structure MistakeRow where
  isPair : Bool
  alts : List Str
  msg : Str
  corr : Str

/-- The common_mistakes table of detect_grammar_errors in source
order. -/
def commonMistakes : List MistakeRow :=
  [⟨true, [chars ("your"), chars ("you§re")],
    chars ("Check usage of §your§ vs §you§re§"),
    chars ("Use §your§ for possession, §you§re§ for §you are§")⟩,
   ⟨true, [chars ("its"), chars ("it§s")],
    chars ("Check usage of §its§ vs §it§s§"),
    chars ("Use §its§ for possession, §it§s§ for §it is§")⟩,
   ⟨true, [chars ("their"), chars ("they§re"), chars ("there")],
    chars ("Check usage of §their§, §they§re§, or §there§"),
    chars ("Use §their§ for possession, §they§re§ for §they are§, §there§ for location")⟩,
   ⟨false, [chars ("could of"), chars ("should of"), chars ("would of")],
    chars ("Incorrect: §could of§, §should of§, §would of§"),
    chars ("Use §could have§, §should have§, §would have§")⟩,
   ⟨false, [chars ("loose"), chars ("lose")],
    chars ("Check §loose§ (not tight) vs §lose§ (misplace)"),
    chars ("Use §lose§ when you misplace something, §loose§ when something is not tight")⟩,
   ⟨false, [chars ("affect"), chars ("effect")],
    chars ("Check §affect§ (verb) vs §effect§ (noun)"),
    chars ("Use §affect§ as a verb (to influence), §effect§ as a noun (result)")⟩,
   ⟨false, [chars ("then"), chars ("than")],
    chars ("Check §then§ (time) vs §than§ (comparison)"),
    chars ("Use §then§ for time sequence, §than§ for comparisons")⟩]

/-- finditer for a word-boundary alternation: leftmost, non-overlapping
matches (they cannot overlap for boundary-delimited words). -/
def findIter1 (alts : List Str) (low : Str) (fuel i : Nat) : List (Nat × Nat) :=
  match fuel with
  | 0 => []
  | fuel + 1 =>
    if low.length ≤ i then []
    else
      match altAt alts low i true with
      | some len => (i, i + len) :: findIter1 alts low fuel (i + len)
      | none => findIter1 alts low fuel (i + 1)

/-- No newline between two indices, the reach of the regex dot. -/
def noNL (low : Str) (a b : Nat) : Bool :=
  ¬ ((low.drop a).take (b - a)).any (fun c => c = '\n')

/-- All boundary-delimited occurrences of an alternation, overlap
allowed, as start and stop pairs. -/
def pairOccs (alts : List Str) (low : Str) : List (Nat × Nat) :=
  (List.range (low.length + 1)).filterMap (fun i =>
    (altAt alts low i true).map (fun len => (i, i + len)))

/-- finditer for the two-occurrence patterns alternation, dot-star,
alternation: a match starts at an occurrence with a later partner on
the same line; the greedy dot-star picks the last such partner; the
scan continues after the match. -/
def pairIter (low : Str) (fuel : Nat) (occs : List (Nat × Nat)) : List (Nat × Nat) :=
  match fuel with
  | 0 => []
  | fuel + 1 =>
    match occs with
    | [] => []
    | p :: rest =>
      match (rest.filter (fun q => p.2 ≤ q.1 ∧ noNL low p.2 q.1)).getLast? with
      | some q => (p.1, q.2) :: pairIter low fuel (rest.filter (fun q2 => q.2 ≤ q2.1))
      | none => pairIter low fuel rest

/-- The common-mistake errors of detect_grammar_errors: matches are
found with IGNORECASE, spans index the original text and the reported
text is the original-case slice. -/
def commonMistakeErrs (text : Str) : List SErr :=
  let low := pyLower text
  commonMistakes.flatMap (fun row =>
    let spans :=
      if row.isPair then pairIter low (low.length + 1) (pairOccs row.alts low)
      else findIter1 row.alts low (low.length + 1) 0
    spans.map (fun sp =>
      ⟨chars ("common_mistake"), row.msg, chars ("medium"), none, none,
        some (sp.1 : Int), some (sp.2 : Int),
        some ((text.drop sp.1).take (sp.2 - sp.1)), some row.corr⟩))

/-- Maximal whitespace runs of length at least two, the double-space
check. -/
def wsRuns (t : Str) (fuel i : Nat) : List (Nat × Nat) :=
  match fuel with
  | 0 => []
  | fuel + 1 =>
    if t.length ≤ i then []
    else if isWs (t.getD i ' ') then
      let run := ((t.drop i).takeWhile isWs).length
      if 2 ≤ run then (i, i + run) :: wsRuns t fuel (i + run)
      else wsRuns t fuel (i + run)
    else wsRuns t fuel (i + 1)

/-- The formatting errors for runs of whitespace. -/
def doubleSpaceErrs (text : Str) : List SErr :=
  (wsRuns text (text.length + 1) 0).map (fun sp =>
    ⟨chars ("formatting"), chars ("Double space detected"), chars ("low"),
      none, none, some (sp.1 : Int), some (sp.2 : Int),
      some ((text.drop sp.1).take (sp.2 - sp.1)), some (chars ("Use single space"))⟩)

/-- The per-sentence checks of detect_grammar_errors for one stripped
sentence. -/
def sentenceChecks (cfg : Config) (text s : Str) : List SErr :=
  if s = [] then []
  else
    let pos := pyFind text s
    let len : Int := (s.length : Int)
    let eCap :=
      if ¬ pyIsUpper (s.headD ' ') then
        [⟨chars ("capitalization"), chars ("Sentence should start with capital letter"),
          chars ("low"), none, none, some pos, some (pos + len),
          some (s.take 50),
          some (if s.length > 1 then capFirst s else pyUpper s)⟩]
      else []
    let ePunct :=
      if ¬ isTerminalPunct (s.getLastD ' ') then
        [⟨chars ("punctuation"),
          chars ("Sentence should end with punctuation (. ! or ?)"),
          chars ("medium"), none, none, some (pos + len - 1), some (pos + len),
          some (s.drop (s.length - min 10 s.length)), some (s ++ chars ("."))⟩]
      else []
    let words := wordTokenize (pyLower s)
    let eFrag :=
      if words.length < 3 ∧ ¬ isTerminalPunct (s.getLastD ' ') then
        [⟨chars ("sentence_fragment"),
          chars ("Sentence fragment detected - incomplete thought"),
          chars ("high"), none, none, some pos, some (pos + len),
          some s, some (chars ("Complete the thought: ") ++ s)⟩]
      else []
    let eRun :=
      if s.length > 100 ∧ countChar s ',' < 2 then
        [⟨chars ("run_on_sentence"),
          chars ("Run-on sentence detected - consider breaking into shorter sentences"),
          chars ("medium"), none, none, some pos, some (pos + len),
          some (s.take 50 ++ chars ("...")),
          some (chars ("Break into multiple sentences or add proper punctuation"))⟩]
      else []
    let words2 := wordTokenize s
    let tags := cfg.posTag words2
    let eSva :=
      if tags.length ≥ 3 ∧ pyLower (words2.headD []) = chars ("there")
          ∧ words2.length > 1 ∧ pyLower (words2.getD 1 []) = chars ("is")
          ∧ (tags.drop 2).any (fun p => p.2 = chars ("NNS")) then
        [⟨chars ("subject_verb_agreement"),
          chars ("Subject-verb agreement: §there is§ should be §there are§ for plural"),
          chars ("high"), none, none,
          some (pos + pyFind s (chars ("there is"))),
          some (pos + pyFind s (chars ("there is")) + 8),
          some (chars ("there is")), some (chars ("there are"))⟩]
      else []
    eCap ++ ePunct ++ eFrag ++ eRun ++ eSva

/-- The spaCy missing-article block of detect_grammar_errors, over the
whole-text parse. -/
def spacyArticleErrs (doc : SpacyDoc) : List SErr :=
  doc.enum.filterMap (fun p =>
    let i := p.1
    let tok := p.2
    if tok.pos = chars ("NOUN") ∧ i > 0 then
      let prev := doc.getD (i - 1) dummyTok
      if prev.pos ∉ [chars ("DET"), chars ("ADJ"), chars ("NOUN"), chars ("PROPN")]
          ∧ pyIsLower (tok.text.headD ' ') then
        if pyLower tok.text ∉ pronounSubjects then
          some ⟨chars ("missing_article"),
            chars ("Consider adding an article (a/an/the) before §") ++ tok.text ++ chars ("§"),
            chars ("low"), none, none,
            some (tok.idx : Int), some ((tok.idx + tok.text.length : Nat) : Int),
            some tok.text,
            some (if isVowel (pyLowerChar (tok.text.headD ' '))
              then chars ("the ") ++ tok.text else chars ("a ") ++ tok.text)⟩
        else none
      else none
    else none)

/-- The TextBlob spelling diff of detect_grammar_errors: lowered word
streams zipped, each mismatch located at its first occurrence. -/
def blobSpellErrs (cfg : Config) (text : Str) : List SErr :=
  let b := cfg.blob text
  if b ≠ text then
    let ow := wordTokenize (pyLower text)
    let cw := wordTokenize (pyLower b)
    (ow.zip cw).filterMap (fun p =>
      if p.1 ≠ p.2 then
        let pos := pyFind (pyLower text) p.1
        if pos ≠ -1 then
          some ⟨chars ("spelling"),
            chars ("Possible spelling error: §") ++ p.1 ++ chars ("§"),
            chars ("medium"), none, none,
            some pos, some (pos + (p.1.length : Int)), some p.1, some p.2⟩
        else none
      else none)
  else []

/-- detect_grammar_errors of grammar_analysis, in source append
order. -/
def detect_grammar_errors (cfg : Config) (text : Str) : List SErr :=
  if pyStrip text = [] then []
  else
    (analyze_sentence_structure cfg text).errors
      ++ commonMistakeErrs text
      ++ doubleSpaceErrs text
      ++ (sentTokenize text).flatMap (fun s => sentenceChecks cfg text (pyStrip s))
      ++ (match cfg.nlp with | some f => spacyArticleErrs (f text) | none => [])
      ++ blobSpellErrs cfg text

/-- The types whose corrections are substituted directly in the
rule-based composite loop. -/
def substitutableTypes : List Str :=
  [chars ("spelling"), chars ("common_mistake"), chars ("subject_verb_agreement")]

/-- The structure types whose sentence-scoped suggestions the composite
loop may still substitute. -/
def structureSuggTypes : List Str :=
  [chars ("word_order"), chars ("missing_words"), chars ("missing_subject"),
   chars ("missing_verb")]

/-- One iteration of the rule-based composite substitution loop of
correct_grammar: the direct fragment substitution for the lexical
types, then the structure-suggestion substitution. -/
def aecStep (st : Str × List Change) (e : SErr) : Str × List Change :=
  let stA :=
    if (e.correction.getD []) ≠ [] ∧ e.ty ∈ substitutableTypes then
      let original := e.txt.getD []
      let corr := e.correction.getD []
      if occursIn original st.1 then
        (replaceFirst st.1 original corr, st.2 ++ [⟨e.ty, original, corr, some e.msg, []⟩])
      else st
    else st
  if e.ty ∈ structureSuggTypes then
    let sugg := e.suggestion.getD []
    if sugg ≠ [] ∧ (e.sentence.getD []) ≠ [] then
      let os := e.sentence.getD []
      if occursIn os stA.1 ∧ ¬ occursIn (chars ("My name is")) stA.1 then
        let c2 := replaceFirst stA.1 os sugg
        let c3 := if ¬ pyEndsWith c2 (chars (".")) then c2 ++ chars (".") else c2
        (c3, stA.2 ++ [⟨e.ty, os, sugg, some e.msg, []⟩])
      else stA
    else stA
  else stA

/-- The rule-based composite substitution loop of correct_grammar:
findings sorted by descending char offset, each fragment substituted
once by first-occurrence replacement; structure suggestions replace the
recorded sentence unless a name rewrite is already present. -/
def apply_error_corrections (start : Str) (errs : List SErr) : Str × List Change :=
  (sortByStartDesc errs).foldl aecStep (start, [])

/-- The correction prompt of correct_grammar built over the input
text. -/
def ai_prompt (text : Str) : Str :=
  chars ("Correct this English sentence. Fix:\n1. Grammar errors (subject-verb agreement, tense, etc.)\n2. Spelling mistakes\n3. Punctuation and capitalization\n4. Sentence structure and word order (e.g., \"name Nishanth I\" → \"My name is Nishanth\")\n5. Sentence formation errors (missing words, incorrect word order, fragments)\n\nOnly return the corrected sentence, nothing else.\n\nOriginal: ")
    ++ text ++ chars ("\n\nCorrected:")

/-- The acceptance gate of the AI-enhanced stage: the completion must be
truthy, its stripped form non-empty and different from the input. -/
def aiAccepted (cfg : Config) (text : Str) (useAi : Bool) : Option Str :=
  if useAi ∧ cfg.aiAvail then
    match cfg.aiResp (ai_prompt text) with
    | some r => if r ≠ [] ∧ pyStrip r ≠ [] ∧ pyStrip r ≠ text then some (pyStrip r) else none
    | none => none
  else none

/-- Result of correct_grammar.  The empty-input and final fall-through
returns of the source carry no method key, modelled by none; the
missing errors_found key of the empty return is read through get
defaults by callers, modelled by zero. -/
structure CGResult where
  original : Str
  corrected : Str
  changes : List Change
  errorsFound : Nat
  method : Option Str
deriving DecidableEq, Repr

/-- The stages of correct_grammar below the sentence-structure early
return: the composite loop, the T5 stage with its length guard, the
TextBlob fallback and the formatting pass; the returned dictionary
carries no method key. -/
def cgComposite (cfg : Config) (text : Str) (sc : SSResult) : CGResult :=
  let errors := detect_grammar_errors cfg text
  let applied := apply_error_corrections sc.corrected errors
  let ct1 := applied.1
  let ch1 := sc.changes ++ applied.2
  let t5res : Str × List Change :=
    match cfg.t5 with
    | some f =>
      if ct1 = text then
        let o := f (chars ("grammar: ") ++ text)
        if o ≠ text ∧ text.length < 2 * o.length then
          (o, [⟨chars ("auto_correction"), text, o,
            some (chars ("AI-powered grammar correction")), []⟩])
        else (ct1, [])
      else (ct1, [])
    | none => (ct1, [])
  let ct2 := t5res.1
  let ch2 := ch1 ++ t5res.2
  let blobRes : Str × List Change :=
    if ch2 = [] ∨ ct2 = text then
      let b := cfg.blob text
      if b ≠ text then
        (b, [⟨chars ("textblob_correction"), text, b,
          some (chars ("Spell and grammar correction")), []⟩])
      else (ct2, [])
    else (ct2, [])
  let ct3 := blobRes.1
  let ch3 := ch2 ++ blobRes.2
  let fixedSents := (sentTokenize ct3).filterMap (fun s =>
    let s2 := pyStrip s
    if s2 = [] then none
    else
      let a := if ¬ pyIsUpper (s2.headD ' ') then capFirst s2 else s2
      some (if ¬ isTerminalPunct (a.getLastD ' ') then a ++ chars (".") else a))
  let finalC := pyJoin (chars (" ")) fixedSents
  let fmt : Str × List Change :=
    if finalC ≠ ct3 then
      (finalC, [⟨chars ("formatting"), ct3, finalC,
        some (chars ("Capitalization and punctuation fixes")), []⟩])
    else (ct3, [])
  ⟨text, fmt.1, ch3 ++ fmt.2, errors.length, none⟩

/-- correct_grammar of grammar_analysis: AI-enhanced stage, then the
sentence-structure stage with its early return, then the composite
stages of cgComposite. -/
def correct_grammar (cfg : Config) (text : Str) (useAi : Bool) : CGResult :=
  if pyStrip text = [] then ⟨text, text, [], 0, none⟩
  else
    match aiAccepted cfg text useAi with
    | some c =>
      let aiChanges :=
        if pyLower c ≠ pyLower text then
          [⟨chars ("ai_correction"), text, c,
            some (chars ("AI-enhanced grammar correction applied")), []⟩]
        else []
      let sc := correct_sentence_structure cfg text
      ⟨text, c, aiChanges ++ sc.changes, sc.structureErrors.length,
        some (chars ("ai_enhanced"))⟩
    | none =>
      let sc := correct_sentence_structure cfg text
      if sc.corrected ≠ text ∧ sc.changes ≠ [] then
        ⟨text, sc.corrected, sc.changes, sc.structureErrors.length,
          some (chars ("rule_based"))⟩
      else cgComposite cfg text sc

/-- An explanation entry of the explanation engine; entries without a
suggestions key are modelled with the empty list, matching the
get-guarded reads. -/
structure Expl where
  ty : Str
  msg : Str
  suggestions : List Str
  rule : Option Str
  sample : Option Str
deriving DecidableEq, Repr

/-- An error record built from a LanguageTool match. -/
structure LTErr where
  error : Str
  suggestions : List Str
  context : Str
  offset : Int
  errorLength : Int
  ruleId : Str
  category : Str
deriving DecidableEq, Repr

/-- Result of explain_correction; the empty-input return of the source
has no correction_applied key, modelled false. -/
structure ExplainResult where
  summary : Str
  explanations : List Expl
  errors : List LTErr
  suggestions : List Str
  correctionApplied : Bool
deriving DecidableEq, Repr

/-- generate_rule_based_explanations of explanation_engine.  The
capitalization check indexes corrected at zero before the short-circuit
reaches original, so an empty corrected raises there; none models that
exception. -/
def generate_rule_based_explanations (original corrected : Str) : Option (List Expl) :=
  let lo := pyLower original
  let lc := pyLower corrected
  let e1 :=
    if occursIn (chars ("my name is")) lc ∧ occursIn (chars ("i")) lo
        ∧ occursIn (chars ("name")) lo ∧ ¬ occursIn (chars ("my name is")) lo then
      [(⟨chars ("word_order"),
        chars ("Sentence structure corrected: English follows Subject-Verb-Object order."),
        [],
        some (chars ("English sentence structure: §My name is [name]§ is the standard format.")),
        some (chars ("❌ §") ++ original ++ chars ("§ → ✅ §") ++ corrected ++ chars ("§"))⟩ : Expl)]
    else []
  let e2 :=
    if (occursIn (chars ("i am a")) lc ∨ occursIn (chars ("i am an")) lc)
        ∧ ¬ occursIn (chars ("i am a")) lo ∧ ¬ occursIn (chars ("i am an")) lo then
      [(⟨chars ("missing_article"),
        chars ("Added article §a§ or §an§ before the noun."),
        [],
        some (chars ("Use §a§ before consonant sounds, §an§ before vowel sounds.")),
        some (chars ("I am student → I am a student"))⟩ : Expl)]
    else []
  let e3 :=
    if occursIn (chars ("to")) lc ∧ ¬ occursIn (chars ("to")) lo
        ∧ [chars ("like"), chars ("want"), chars ("need"), chars ("try")].any
            (fun v => occursIn v lo) then
      [(⟨chars ("missing_infinitive"),
        chars ("Added §to§ before the verb to form an infinitive."),
        [],
        some (chars ("After verbs like §like§, §want§, §need§, use §to§ + base verb.")),
        some (chars ("I like play → I like to play"))⟩ : Expl)]
    else []
  let e4res : Option (List Expl) :=
    match corrected with
    | [] => none
    | c0 :: _ =>
      if pyIsUpper c0 then
        match original with
        | [] => none
        | o0 :: _ =>
          if pyIsLower o0 then
            some [(⟨chars ("capitalization"),
              chars ("Capitalized the first letter of the sentence."),
              [],
              some (chars ("Sentences must begin with a capital letter.")),
              some (chars ("§") ++ original ++ chars ("§ → §") ++ corrected ++ chars ("§"))⟩ : Expl)]
          else some []
      else some []
  match e4res with
  | none => none
  | some e4 =>
    let e5 :=
      if pyEndsWith corrected (chars (".")) ∧ ¬ pyEndsWith original (chars (".")) then
        [(⟨chars ("punctuation"),
          chars ("Added period at the end of the sentence."),
          [],
          some (chars ("Declarative sentences end with a period.")),
          some (chars ("§") ++ original ++ chars ("§ → §") ++ corrected ++ chars ("§"))⟩ : Expl)]
      else []
    some (e1 ++ e2 ++ e3 ++ e4 ++ e5)

/-- generate_correction_summary of explanation_engine.  The source
substring-checks the repr of a category-count dictionary; a word of
letters appears in that repr exactly when it appears in one of the
category strings, which is how the check is modelled. -/
def generate_correction_summary (original corrected : Str) (errors : List LTErr) : Str :=
  if errors = [] ∧ original = corrected then
    chars ("Your sentence is grammatically correct.")
  else
    let cats := errors.map (fun e => e.category)
    let p1 := if cats.any (fun c => occursIn (chars ("GRAMMAR")) c) then
        [chars ("Fixed grammatical errors")] else []
    let p2 := if cats.any (fun c => occursIn (chars ("TYPOS")) c) then
        [chars ("Corrected spelling mistakes")] else []
    let p3 := if cats.any (fun c => occursIn (chars ("STYLE")) c) then
        [chars ("Improved writing style")] else []
    let p4 := if occursIn (chars ("my name is")) (pyLower corrected)
        ∧ ¬ occursIn (chars ("my name is")) (pyLower original) then
        [chars ("Restructured sentence to follow English word order")] else []
    let p5 := if occursIn (chars ("to")) (pyLower corrected)
        ∧ ¬ occursIn (chars ("to")) (pyLower original) then
        [chars ("Added missing infinitive marker §to§")] else []
    let p6 := if ([chars (" a "), chars (" an ")].any
          (fun a => occursIn a (pyLower corrected)))
        ∧ ¬ ([chars (" a "), chars (" an ")].any
          (fun a => occursIn a (pyLower original))) then
        [chars ("Added missing articles")] else []
    let parts := p1 ++ p2 ++ p3 ++ p4 ++ p5 ++ p6
    if parts ≠ [] then pyJoin (chars (" | ")) parts ++ chars (".")
    else chars ("Rephrased to follow standard English syntax and subject-verb order.")

/-- The deduplication list(set(..)) of the source: within one process
the set order is fixed; the model uses the dedup order, on which the
stated properties do not depend. -/
def pySetList (l : List Str) : List Str := l.dedup

/-- The LanguageTool answers for a text, none when the collaborator is
unavailable or its call raised. -/
def ltAns (cfg : Config) (original : Str) : Option (List LTMatch) :=
  cfg.lt.map (fun f => f original)

/-- explain_correction of explanation_engine; the detailed flag of the
source is never read. -/
def explain_correction (cfg : Config) (original corrected : Str) (_detailed : Bool) :
    Option ExplainResult :=
  if original = [] ∨ pyStrip original = [] then
    some ⟨chars ("No text provided."), [], [], [], false⟩
  else
    let ltm := (ltAns cfg original).getD []
    let errors := ltm.map (fun m =>
      (⟨m.message, m.replacements.take 3, m.context, m.offset, m.errorLength,
        m.ruleId, m.category⟩ : LTErr))
    let expl1 := ltm.map (fun m =>
      (⟨chars ("language_tool"), m.message, m.replacements.take 3,
        some m.ruleId, none⟩ : Expl))
    match generate_rule_based_explanations original corrected with
    | none => none
    | some rb =>
      let explanations := expl1 ++ rb
      let summary :=
        if original ≠ corrected then
          generate_correction_summary original corrected errors
        else chars ("Your sentence is grammatically correct.")
      let suggestions := explanations.foldl (fun acc e =>
        if e.suggestions ≠ [] then acc ++ e.suggestions.take 2 else acc) []
      some ⟨summary, explanations, errors, (pySetList suggestions).take 5,
        original ≠ corrected⟩

/-- Head of a list, when present, not whitespace. -/
def headNotWs (l : Str) : Prop := ∀ c ∈ l.head?, isWs c = false

/-- Last element, when present, not whitespace. -/
def lastNotWs (l : Str) : Prop := ∀ c ∈ l.getLast?, isWs c = false

/-- A spelling finding with a char span, the shape the TextBlob diff
of detect_grammar_errors produces (the diff locates each fragment at
its first occurrence in the text). -/
def spellErr (st en : Int) (txt corr msg : Str) : SErr :=
  ⟨chars ("spelling"), msg, chars ("medium"), none, none, some st, some en,
    some txt, some corr⟩

/-- The fallback environment: collaborator unavailable, no T5 models,
no spaCy model, no LanguageTool, TextBlob leaving text unchanged, an
empty tagger. -/
def cfgFallback : Config :=
  ⟨false, fun _ => none, none, none, id, fun _ => [], none, none⟩

/-- An environment whose collaborator answers every prompt with the
completion Hello-dot-space. -/
def cfgAiWs : Config :=
  ⟨true, fun _ => some (chars ("Hello. ")), none, none, id, fun _ => [], none, none⟩

/-- An environment whose collaborator answers every prompt with a
name rewrite carrying surrounding whitespace. -/
def cfgAiGood : Config :=
  ⟨true, fun _ => some (chars (" My name is Nishanth. ")), none, none, id,
    fun _ => [], none, none⟩

/-- A trained-model environment whose pipeline answers every prompt
with the single character x. -/
def cfgShortModel : Config :=
  ⟨false, fun _ => none, none, some (fun _ => chars ("x")), id, fun _ => [], none, none⟩

/-- A model oracle answering every prompt with a full sentence. -/
def modelFun : Str → Str := fun _ => chars ("He is happy.")

/-- A trained-model environment built over modelFun. -/
def cfgModelGood : Config :=
  ⟨false, fun _ => none, none, some modelFun, id, fun _ => [], none, none⟩

/-- replaceFirst rewrites exactly at the first occurrence: the text
splits at that index and the pattern is replaced there. -/
theorem replaceFirst_of_firstOcc (pat new : Str) :
    ∀ (t : Str) (k : Nat), firstOcc t pat = some k →
      replaceFirst t pat new = t.take k ++ new ++ t.drop (k + pat.length) := by
  intro t
  induction t with
  | nil =>
    intro k h
    rw [firstOcc] at h
    by_cases hp : pat <+: ([] : Str)
    · rw [if_pos hp] at h
      injection h with h
      subst h
      rw [replaceFirst, if_pos hp]
      simp
    · rw [if_neg hp] at h
      exact absurd h (by simp)
  | cons c t2 ih =>
    intro k h
    rw [firstOcc] at h
    by_cases hp : pat <+: (c :: t2)
    · rw [if_pos hp] at h
      injection h with h
      subst h
      rw [replaceFirst, if_pos hp]
      simp
    · rw [if_neg hp] at h
      simp only [Option.map_eq_some'] at h
      obtain ⟨k2, hk2, rfl⟩ := h
      rw [replaceFirst, if_neg hp]
      rw [ih k2 hk2]
      simp only [List.take_succ_cons, List.cons_append]
      have : k2 + 1 + pat.length = (k2 + pat.length) + 1 := by omega
      rw [this]
      rfl

/-- A pattern no longer than the first part of an append is its prefix
exactly when it is a prefix of that part. -/
theorem prefix_append_of_le (pat a x : Str) (h : pat.length ≤ a.length) :
    pat <+: a ++ x ↔ pat <+: a := by
  constructor
  · intro hp
    rw [List.prefix_iff_eq_take] at hp
    rw [List.take_append_eq_append_take] at hp
    rw [Nat.sub_eq_zero_of_le h] at hp
    simp at hp
    rw [hp]
    exact List.take_prefix _ _
  · intro hp
    exact hp.trans (List.prefix_append a x)

/-- A first occurrence lying entirely inside the left part of an append
is stable under changing the right part. -/
theorem firstOcc_append_congr (pat x y : Str) :
    ∀ (a : Str) (k : Nat), k + pat.length ≤ a.length →
      firstOcc (a ++ x) pat = some k → firstOcc (a ++ y) pat = some k := by
  intro a
  induction a with
  | nil =>
    intro k hk h
    simp at hk
    obtain ⟨hk1, hk2⟩ := hk
    subst hk2
    rw [firstOcc.eq_def] at h
    rw [firstOcc.eq_def]
    rw [if_pos List.nil_prefix] at h
    rw [if_pos List.nil_prefix]
    exact h
  | cons c a2 ih =>
    intro k hk h
    rw [firstOcc.eq_def] at h
    rw [firstOcc.eq_def]
    by_cases hp : pat <+: (c :: a2) ++ x
    · rw [if_pos hp] at h
      injection h with h
      subst h
      have hle : pat.length ≤ (c :: a2).length := by simpa using hk
      have hpa : pat <+: (c :: a2) := (prefix_append_of_le pat (c :: a2) x hle).mp hp
      rw [if_pos ((prefix_append_of_le pat (c :: a2) y hle).mpr hpa)]
    · rw [if_neg hp] at h
      simp only [List.cons_append, Option.map_eq_some'] at h
      obtain ⟨k2, hk2, rfl⟩ := h
      simp only [List.length_cons] at hk
      have hle : pat.length ≤ (c :: a2).length := by
        simp only [List.length_cons]
        omega
      have hpa : ¬ pat <+: (c :: a2) := by
        intro hcon
        exact hp ((prefix_append_of_le pat (c :: a2) x hle).mpr hcon)
      rw [if_neg (fun hcon => hpa ((prefix_append_of_le pat (c :: a2) y hle).mp hcon))]
      simp only [List.cons_append, Option.map_eq_some']
      refine ⟨k2, ih k2 ?_ hk2, rfl⟩
      omega

theorem head?_dropWhile_not_ws :
    ∀ (m : Str), ∀ c ∈ (m.dropWhile isWs).head?, isWs c = false := by
  intro m
  induction m with
  | nil => intro c hc; simp at hc
  | cons a m2 ih =>
    intro c hc
    rw [List.dropWhile_cons] at hc
    by_cases ha : isWs a
    · rw [if_pos (by simpa using ha)] at hc
      exact ih c hc
    · rw [if_neg (by simpa using ha)] at hc
      simp at hc
      subst hc
      simpa using ha

/-- A string with no surrounding whitespace strips to itself. -/
theorem pyStrip_eq_self (l : Str) (h1 : headNotWs l) (h2 : lastNotWs l) :
    pyStrip l = l := by
  rw [pyStrip]
  have hd : l.dropWhile isWs = l := by
    cases l with
    | nil => rfl
    | cons c t =>
      rw [List.dropWhile_cons]
      have := h1 c (by simp)
      simp [this]
  rw [hd]
  rw [List.rdropWhile_eq_self_iff]
  intro hl
  have := h2 (l.getLast hl) (by simp [List.getLast?_eq_getLast _ hl])
  simp [this]

theorem headNotWs_pyStrip (l : Str) : headNotWs (pyStrip l) := by
  intro c hc
  have hpre : pyStrip l <+: l.dropWhile isWs :=
    List.rdropWhile_prefix isWs (l.dropWhile isWs)
  obtain ⟨t, ht⟩ := hpre
  apply head?_dropWhile_not_ws l c
  cases hps : pyStrip l with
  | nil => rw [hps] at hc; simp at hc
  | cons c0 t0 =>
    rw [hps] at hc
    simp at hc
    subst hc
    rw [hps] at ht
    rw [← ht]
    simp

theorem lastNotWs_pyStrip (l : Str) : lastNotWs (pyStrip l) := by
  intro c hc
  have hrw : pyStrip l = ((l.dropWhile isWs).reverse.dropWhile isWs).reverse := rfl
  rw [hrw, List.getLast?_reverse] at hc
  exact head?_dropWhile_not_ws (l.dropWhile isWs).reverse c hc

theorem pyStrip_idem (l : Str) : pyStrip (pyStrip l) = pyStrip l :=
  pyStrip_eq_self _ (headNotWs_pyStrip l) (lastNotWs_pyStrip l)

theorem letterPairs_not_ws :
    ∀ p ∈ letterPairs, isWs p.1 = false ∧ isWs p.2 = false := by
  decide

theorem isWs_pyUpperChar (c : Char) : isWs (pyUpperChar c) = isWs c := by
  rw [pyUpperChar]
  cases hf : letterPairs.find? (fun p => p.1 = c) with
  | none => simp
  | some p =>
    have hmem := List.mem_of_find?_eq_some hf
    have hpred := List.find?_some hf
    have hc : p.1 = c := by simpa using hpred
    have hboth := letterPairs_not_ws p hmem
    rw [← hc]
    simp [hboth.1, hboth.2]

theorem headNotWs_capFirst (l : Str) (h : headNotWs l) : headNotWs (capFirst l) := by
  intro c hc
  cases l with
  | nil => simp [capFirst] at hc
  | cons a t =>
    rw [capFirst] at hc
    simp at hc
    subst hc
    rw [isWs_pyUpperChar]
    exact h a (by simp)

theorem lastNotWs_capFirst (l : Str) (h : lastNotWs l) : lastNotWs (capFirst l) := by
  intro c hc
  cases l with
  | nil => simp [capFirst] at hc
  | cons a t =>
    rw [capFirst] at hc
    cases t with
    | nil =>
      simp at hc
      subst hc
      rw [isWs_pyUpperChar]
      exact h a (by simp)
    | cons b t2 =>
      rw [List.getLast?_cons_cons] at hc
      exact h c (by rw [List.getLast?_cons_cons]; exact hc)

theorem headNotWs_append (l x : Str) (hne : l ≠ []) (h : headNotWs l) :
    headNotWs (l ++ x) := by
  intro c hc
  cases l with
  | nil => exact absurd rfl hne
  | cons a t =>
    simp at hc
    subst hc
    exact h a (by simp)

theorem lastNotWs_concat_dot (l : Str) : lastNotWs (l ++ chars (".")) := by
  intro c hc
  have : chars (".") = ['.'] := rfl
  rw [this, List.getLast?_concat] at hc
  simp at hc
  subst hc
  decide

/-- The formatting of the rule-based branch of correct_text returns a
string without surrounding whitespace. -/
theorem ruleStageFormat_stripped (c0 : Str) :
    pyStrip (ruleStageFormat c0) = ruleStageFormat c0 := by
  by_cases h0 : c0 = []
  · rw [ruleStageFormat, if_neg (by simp [h0]), h0]
    rfl
  · rw [ruleStageFormat, if_pos h0]
    dsimp only
    have hh : headNotWs (pyStrip c0) := headNotWs_pyStrip c0
    have hl : lastNotWs (pyStrip c0) := lastNotWs_pyStrip c0
    set cs := pyStrip c0 with hcs
    set cs2 := if cs ≠ [] ∧ ¬ pyIsUpper (cs.headD ' ') = true then capFirst cs else cs
      with hcs2
    have hh2 : headNotWs cs2 := by
      rw [hcs2]
      split
      · exact headNotWs_capFirst cs hh
      · exact hh
    have hl2 : lastNotWs cs2 := by
      rw [hcs2]
      split
      · exact lastNotWs_capFirst cs hl
      · exact hl
    split
    · next hcond =>
      apply pyStrip_eq_self
      · exact headNotWs_append cs2 (chars (".")) hcond.1 hh2
      · exact lastNotWs_concat_dot cs2
    · exact pyStrip_eq_self cs2 hh2 hl2

/-- An accepted model-stage output carries no surrounding whitespace. -/
theorem modelStage_stripped (cfg : Config) (ot : Str) (um : Bool) (c : Str)
    (h : modelStage cfg ot um = some c) : pyStrip c = c := by
  rw [modelStage] at h
  split at h
  · split at h
    · dsimp only at h
      split at h
      · injection h with h
        subst h
        exact pyStrip_idem _
      · exact absurd h (by simp)
    · exact absurd h (by simp)
  · exact absurd h (by simp)

/-- One composite-loop step on a spelling finding whose fragment occurs
in the working text: first-occurrence replacement plus one change. -/
theorem aecStep_spell (ct : Str) (ch : List Change) (st en : Int)
    (txt corr msg : Str) (hcorr : corr ≠ []) (k : Nat)
    (hocc : firstOcc ct txt = some k) :
    aecStep (ct, ch) (spellErr st en txt corr msg)
      = (replaceFirst ct txt corr,
         ch ++ [⟨chars ("spelling"), txt, corr, some msg, []⟩]) := by
  have hmemA : chars ("spelling") ∈ substitutableTypes := by decide
  have hmemB : ¬ chars ("spelling") ∈ structureSuggTypes := by decide
  have hoc : occursIn txt ct = true := by
    rw [occursIn, hocc]
    rfl
  simp only [aecStep, spellErr, Option.getD_some]
  rw [if_neg hmemB]
  rw [if_pos ⟨hcorr, hmemA⟩]
  rw [if_pos hoc]

/-- The method strings correct_text can return. -/
theorem ct_method_closure (cfg : Config) (text : Str) (um : Bool) :
    (correct_text cfg text um).method
      ∈ [chars ("none"), chars ("t5_model"), chars ("rule_based")] := by
  rw [correct_text]
  split
  · simp
  · dsimp only
    split
    · simp
    · split <;> simp

/-- The method values correct_grammar can return; none models the
absent method key of the final fall-through return. -/
theorem cg_method_closure (cfg : Config) (text : Str) (ua : Bool) :
    (correct_grammar cfg text ua).method
      ∈ [none, some (chars ("ai_enhanced")), some (chars ("rule_based"))] := by
  rw [correct_grammar]
  split
  · simp
  · split
    · simp
    · dsimp only
      split
      · simp
      · exact List.Mem.head _

/-- Claim C1 (amended): when the External Enhancement Collaborator is
available and its completion strips to a non-empty text different from
the input, correct_grammar returns exactly that stripped completion
with method ai_enhanced and the original unchanged; no later stage
touches the corrected text.  The amendment: acceptance compares the
stripped completion with the input, so a completion differing from the
input only by surrounding whitespace is rejected. -/
theorem C1_ai_stage_commit_amended (cfg : Config) (text r : Str)
    (havail : cfg.aiAvail = true)
    (hresp : cfg.aiResp (ai_prompt text) = some r)
    (hne : pyStrip r ≠ [])
    (hdiff : pyStrip r ≠ text)
    (htext : pyStrip text ≠ []) :
    (correct_grammar cfg text true).corrected = pyStrip r
      ∧ (correct_grammar cfg text true).method = some (chars ("ai_enhanced"))
      ∧ (correct_grammar cfg text true).original = text := by
  have hrne : r ≠ [] := by
    intro hr
    exact hne (by rw [hr]; rfl)
  have hacc : aiAccepted cfg text true = some (pyStrip r) := by
    rw [aiAccepted, if_pos (⟨rfl, havail⟩ : true = true ∧ cfg.aiAvail = true), hresp]
    dsimp only
    rw [if_pos ⟨hrne, hne, hdiff⟩]
  rw [correct_grammar, if_neg htext, hacc]
  dsimp only
  exact ⟨rfl, rfl, rfl⟩

/-- Witness for C1: a collaborator answering with a whitespace-padded
name rewrite commits the stripped rewrite with method ai_enhanced. -/
theorem C1_ai_stage_commit_witness :
    (correct_grammar cfgAiGood (chars ("i nishanth name")) true).corrected
        = pyStrip (chars (" My name is Nishanth. "))
      ∧ (correct_grammar cfgAiGood (chars ("i nishanth name")) true).method
        = some (chars ("ai_enhanced"))
      ∧ (correct_grammar cfgAiGood (chars ("i nishanth name")) true).original
        = chars ("i nishanth name") :=
  C1_ai_stage_commit_amended cfgAiGood (chars ("i nishanth name"))
    (chars (" My name is Nishanth. ")) rfl rfl (by decide) (by decide) (by decide)

/-- Counterexample to C1 as stated: the completion Hello-dot-space is
non-empty and differs from the input Hello-dot, yet the stage rejects
it (the stripped completion equals the input) and the pipeline falls
through to the rule-based stage, which commits a different text. -/
theorem C1_whitespace_completion_counterexample :
    cfgAiWs.aiAvail = true
      ∧ cfgAiWs.aiResp (ai_prompt (chars ("Hello."))) = some (chars ("Hello. "))
      ∧ chars ("Hello. ") ≠ []
      ∧ chars ("Hello. ") ≠ chars ("Hello.")
      ∧ (correct_grammar cfgAiWs (chars ("Hello.")) true).method
          ≠ some (chars ("ai_enhanced"))
      ∧ (correct_grammar cfgAiWs (chars ("Hello.")) true).corrected
          ≠ pyStrip (chars ("Hello. ")) := by decide

/-- Claim C2 (amended): correcting the already-correct sentence returns
it unchanged with method none and an empty change list, and correcting
its output again is stable at that point. -/
theorem C2_noop_and_fixedpoint_amended :
    correct_text cfgFallback (chars ("I am happy.")) true
        = ⟨chars ("I am happy."), chars ("I am happy."), chars ("none")⟩
      ∧ (correct_sentence_structure cfgFallback (chars ("I am happy."))).changes = []
      ∧ correct_text cfgFallback
          ((correct_text cfgFallback (chars ("I am happy.")) true).corrected) true
        = correct_text cfgFallback (chars ("I am happy.")) true := by decide

/-- Counterexample to C2 as stated: correct maps i-like-play to the
sentence I-like-to-play-dot, but correcting that output again yields a
different text, so correction is not idempotent. -/
theorem C2_idempotence_counterexample :
    (correct_text cfgFallback (chars ("i like play")) true).corrected
        = chars ("I like to play.")
      ∧ (correct_text cfgFallback
            ((correct_text cfgFallback (chars ("i like play")) true).corrected)
            true).corrected
        ≠ (correct_text cfgFallback (chars ("i like play")) true).corrected := by decide

/-- Claim C3: empty or whitespace-only input is returned unchanged by
correct_text with method none, and by correct_grammar with unchanged
fields (whose dictionary carries no method key, modelled none); no
exception is raised, the functions being total. -/
theorem C3_empty_input (cfg : Config) (text : Str) (um ua : Bool)
    (h : pyStrip text = []) :
    correct_text cfg text um = ⟨text, text, chars ("none")⟩
      ∧ correct_grammar cfg text ua = ⟨text, text, [], 0, none⟩ := by
  constructor
  · rw [correct_text, if_pos h]
  · rw [correct_grammar, if_pos h]

/-- Witness for C3 at a whitespace-only input. -/
theorem C3_empty_input_witness :
    correct_text cfgFallback (chars ("   ")) true
        = ⟨chars ("   "), chars ("   "), chars ("none")⟩
      ∧ correct_grammar cfgFallback (chars ("   ")) true
        = ⟨chars ("   "), chars ("   "), [], 0, none⟩ :=
  C3_empty_input cfgFallback (chars ("   ")) true true (by decide)

/-- Claim C4: in the rule-based composite loop, two lexical findings at
offsets five-to-eight and twenty-to-twentyfive (fragments located at
their first occurrences, as the detectors guarantee for spelling
findings) are substituted in descending-offset order, each exactly
once; the later substitution, even when it changes the length of the
text, leaves the earlier one uncorrupted, and both land exactly at
their spans. -/
theorem C4_fragment_ordering_safety (p f1 m f2 s c1 c2 msg1 msg2 : Str)
    (hp : p.length = 5) (hf1 : f1.length = 3) (hm : m.length = 12)
    (hf2 : f2.length = 5) (hc1 : c1 ≠ []) (hc2 : c2 ≠ [])
    (h1 : firstOcc (p ++ f1 ++ m ++ f2 ++ s) f1 = some 5)
    (h2 : firstOcc (p ++ f1 ++ m ++ f2 ++ s) f2 = some 20) :
    apply_error_corrections (p ++ f1 ++ m ++ f2 ++ s)
        [spellErr 5 8 f1 c1 msg1, spellErr 20 25 f2 c2 msg2]
      = (p ++ c1 ++ m ++ c2 ++ s,
         [⟨chars ("spelling"), f2, c2, some msg2, []⟩,
          ⟨chars ("spelling"), f1, c1, some msg1, []⟩]) := by
  have hsort : sortByStartDesc [spellErr 5 8 f1 c1 msg1, spellErr 20 25 f2 c2 msg2]
      = [spellErr 20 25 f2 c2 msg2, spellErr 5 8 f1 c1 msg1] := by
    rw [sortByStartDesc, sortByStartDesc, sortByStartDesc]
    rw [insErrDesc, insErrDesc, insErrDesc]
    norm_num [spellErr]
  rw [apply_error_corrections, hsort, List.foldl_cons]
  rw [aecStep_spell _ _ _ _ _ _ _ hc2 20 h2]
  have htA : p ++ f1 ++ m ++ f2 ++ s = ((p ++ f1) ++ m) ++ (f2 ++ s) :=
    List.append_assoc ((p ++ f1) ++ m) f2 s
  have hA : ((p ++ f1) ++ m).length = 20 := by
    simp [hp, hf1, hm]
  have hrep2 : replaceFirst (p ++ f1 ++ m ++ f2 ++ s) f2 c2
      = ((p ++ f1) ++ m) ++ (c2 ++ s) := by
    rw [replaceFirst_of_firstOcc f2 c2 _ 20 h2]
    have h20 : (p ++ f1 ++ m ++ f2 ++ s).take 20 = (p ++ f1) ++ m := by
      rw [htA, ← hA, List.take_left]
    have h25 : (p ++ f1 ++ m ++ f2 ++ s).drop (20 + f2.length) = s := by
      have hAf : (((p ++ f1) ++ m) ++ f2).length = 20 + f2.length := by
        simp [hp, hf1, hm]
        omega
      rw [← hAf, List.drop_left]
    rw [h20, h25]
    simp [List.append_assoc]
  rw [hrep2, List.foldl_cons, List.foldl_nil]
  have h1A : firstOcc (((p ++ f1) ++ m) ++ (f2 ++ s)) f1 = some 5 := by
    rw [← htA]
    exact h1
  have h1B : firstOcc (((p ++ f1) ++ m) ++ (c2 ++ s)) f1 = some 5 := by
    apply firstOcc_append_congr f1 (f2 ++ s) (c2 ++ s) ((p ++ f1) ++ m) 5 _ h1A
    rw [hA, hf1]
    omega
  rw [aecStep_spell _ _ _ _ _ _ _ hc1 5 h1B]
  have hrep1 : replaceFirst (((p ++ f1) ++ m) ++ (c2 ++ s)) f1 c1
      = p ++ c1 ++ m ++ c2 ++ s := by
    rw [replaceFirst_of_firstOcc f1 c1 _ 5 h1B]
    have h5 : ((((p ++ f1) ++ m) ++ (c2 ++ s))).take 5 = p := by
      have ha1 : ((p ++ f1) ++ m) ++ (c2 ++ s) = p ++ (f1 ++ (m ++ (c2 ++ s))) := by
        simp [List.append_assoc]
      rw [ha1, ← hp, List.take_left]
    have h8 : ((((p ++ f1) ++ m) ++ (c2 ++ s))).drop (5 + f1.length)
        = m ++ (c2 ++ s) := by
      have ha2 : ((p ++ f1) ++ m) ++ (c2 ++ s) = (p ++ f1) ++ (m ++ (c2 ++ s)) := by
        simp [List.append_assoc]
      have hpf : (p ++ f1).length = 5 + f1.length := by simp [hp]
      rw [ha2, ← hpf, List.drop_left]
    rw [h5, h8]
    simp [List.append_assoc]
  rw [hrep1]
  simp

/-- Witness for C4: a concrete two-finding scenario whose later
substitution changes the length of the text. -/
theorem C4_fragment_ordering_witness :
    apply_error_corrections
        (chars ("xxxx ") ++ chars ("teh") ++ chars (" yyyyyyyyyy ")
          ++ chars ("worng") ++ chars (" z"))
        [spellErr 5 8 (chars ("teh")) (chars ("the")) (chars ("m1")),
         spellErr 20 25 (chars ("worng")) (chars ("wrong one")) (chars ("m2"))]
      = (chars ("xxxx ") ++ chars ("the") ++ chars (" yyyyyyyyyy ")
          ++ chars ("wrong one") ++ chars (" z"),
         [⟨chars ("spelling"), chars ("worng"), chars ("wrong one"),
            some (chars ("m2")), []⟩,
          ⟨chars ("spelling"), chars ("teh"), chars ("the"),
            some (chars ("m1")), []⟩]) :=
  C4_fragment_ordering_safety (chars ("xxxx ")) (chars ("teh"))
    (chars (" yyyyyyyyyy ")) (chars ("worng")) (chars (" z"))
    (chars ("the")) (chars ("wrong one")) (chars ("m1")) (chars ("m2"))
    (by decide) (by decide) (by decide) (by decide) (by decide) (by decide)
    (by decide) (by decide)

/-- Claim C5 (amended): the model stage of correct_text commits any
non-empty pipeline output that differs from the stripped input, with
tag t5_model and no later stage running; it applies no length guard
(the strictly-greater-than-half guard exists only in the internal T5
stage of correct_grammar). -/
theorem C5_model_commit_amended (cfg : Config) (f : Str → Str) (text : Str)
    (hpipe : cfg.pipe = some f)
    (hne : f (chars ("grammar: ") ++ pyStrip text) ≠ [])
    (hdiff : f (chars ("grammar: ") ++ pyStrip text) ≠ pyStrip text)
    (htext : pyStrip text ≠ []) :
    correct_text cfg text true
      = ⟨pyStrip text, pyStrip (f (chars ("grammar: ") ++ pyStrip text)),
         chars ("t5_model")⟩ := by
  have hms : modelStage cfg (pyStrip text) true
      = some (pyStrip (f (chars ("grammar: ") ++ pyStrip text))) := by
    rw [modelStage, if_pos rfl, hpipe]
    dsimp only
    rw [if_pos ⟨hne, hdiff⟩]
  rw [correct_text, if_neg htext]
  dsimp only
  rw [hms]

/-- Witness for C5 at a concrete model environment. -/
theorem C5_model_commit_witness :
    correct_text cfgModelGood (chars ("He happy")) true
      = ⟨pyStrip (chars ("He happy")),
         pyStrip (modelFun (chars ("grammar: ") ++ pyStrip (chars ("He happy")))),
         chars ("t5_model")⟩ :=
  C5_model_commit_amended cfgModelGood modelFun (chars ("He happy"))
    rfl (by decide) (by decide) (by decide)

/-- Counterexample to C5 as stated: a one-character model output,
far below half the length of the input, is committed by correct_text
with tag t5_model instead of being rejected as a truncation failure. -/
theorem C5_length_guard_counterexample :
    (correct_text cfgShortModel (chars ("Helloo world.")) true).method
        = chars ("t5_model")
      ∧ (correct_text cfgShortModel (chars ("Helloo world.")) true).corrected
        = chars ("x")
      ∧ 2 * (chars ("x")).length ≤ (chars ("Helloo world.")).length := by decide

/-- Claim C6: with the collaborator unavailable and no trained model,
correct maps i-nishanth-name to the rewrite My-name-is-Nishanth-dot
with method rule_based. -/
theorem C6_fallback_completeness :
    correct_text cfgFallback (chars ("i nishanth name")) true
      = ⟨chars ("i nishanth name"), chars ("My name is Nishanth."),
         chars ("rule_based")⟩ := by decide

/-- Claim C7 (code bug): on the exact claimed input with its terminal
period, no missing_infinitive finding is produced (the detection
regexes require the sentence to end right after the verb phrase) and
the correction degenerates to the missing_verb suggestion text used as
the corrected sentence; without the period the intended rewrite is
produced, showing the intent. -/
theorem C7_missing_infinitive_failing_input :
    correct_text cfgFallback (chars ("I like play football.")) true
        = ⟨chars ("I like play football."),
           chars ("Add a verb like §is§, §am§, §are§, §have§, etc."),
           chars ("rule_based")⟩
      ∧ (correct_sentence_structure cfgFallback
            (chars ("I like play football."))).structureErrors.map (fun e => e.ty)
        = [chars ("missing_verb")]
      ∧ correct_text cfgFallback (chars ("I like play football")) true
        = ⟨chars ("I like play football"), chars ("I like to play football."),
           chars ("rule_based")⟩ := by decide

/-- Claim C8 (amended): correct_text only ever returns the method
strings none, t5_model and rule_based, and correct_grammar only ever
returns ai_enhanced, rule_based or no method key at all; the tags
structural and model_based are never produced. -/
theorem C8_method_tags_amended (cfg : Config) (text : Str) (um ua : Bool) :
    (correct_text cfg text um).method
        ∈ [chars ("none"), chars ("t5_model"), chars ("rule_based")]
      ∧ (correct_grammar cfg text ua).method
        ∈ [none, some (chars ("ai_enhanced")), some (chars ("rule_based"))] :=
  ⟨ct_method_closure cfg text um, cg_method_closure cfg text ua⟩

/-- Counterexample to C8 as stated: an accepted model output is tagged
t5_model, a value outside the claimed five-tag set. -/
theorem C8_method_tag_counterexample :
    (correct_text cfgShortModel (chars ("Worlld is big.")) true).method
        = chars ("t5_model")
      ∧ chars ("t5_model") ∉ [chars ("ai_enhanced"), chars ("structural"),
          chars ("model_based"), chars ("rule_based"), chars ("none")] := by decide

/-- Claim C9: explain_correction is deterministic: two calls on the
same original and corrected pair, in any environments whose
LanguageTool collaborator gives the same answers and for any value of
the unused detailed flag, return identical bundles; the suggestion
list is deduplicated and carries at most five entries. -/
theorem C9_explain_deterministic (cfg cfg2 : Config) (original corrected : Str)
    (d d2 : Bool) (h : ltAns cfg original = ltAns cfg2 original) :
    explain_correction cfg original corrected d
        = explain_correction cfg2 original corrected d2
      ∧ (((explain_correction cfg original corrected d).map
          (fun b => b.suggestions)).getD []).Nodup
      ∧ (((explain_correction cfg original corrected d).map
          (fun b => b.suggestions)).getD []).length ≤ 5 := by
  refine ⟨?_, ?_, ?_⟩
  · rw [explain_correction, explain_correction, h]
  · rw [explain_correction]
    split
    · simp
    · dsimp only
      split
      · simp
      · simp only [Option.map_some', Option.getD_some, pySetList]
        exact List.Nodup.sublist (List.take_sublist _ _) (List.nodup_dedup _)
  · rw [explain_correction]
    split
    · simp
    · dsimp only
      split
      · simp
      · simp only [Option.map_some', Option.getD_some, pySetList]
        exact List.length_take_le _ _

/-- Witness for C9 on a concrete correction pair. -/
theorem C9_explain_deterministic_witness :
    explain_correction cfgFallback (chars ("i like play")) (chars ("I like to play.")) true
        = explain_correction cfgFallback (chars ("i like play")) (chars ("I like to play.")) false
      ∧ (((explain_correction cfgFallback (chars ("i like play"))
          (chars ("I like to play.")) true).map (fun b => b.suggestions)).getD []).Nodup
      ∧ (((explain_correction cfgFallback (chars ("i like play"))
          (chars ("I like to play.")) true).map (fun b => b.suggestions)).getD []).length ≤ 5 :=
  C9_explain_deterministic cfgFallback cfgFallback (chars ("i like play"))
    (chars ("I like to play.")) true false rfl

/-- Claim C10: for non-whitespace input, the original field of
correct_text equals the stripped input, and the corrected field never
carries surrounding whitespace. -/
theorem C10_input_normalization (cfg : Config) (text : Str) (um : Bool)
    (h : pyStrip text ≠ []) :
    (correct_text cfg text um).original = pyStrip text
      ∧ pyStrip (correct_text cfg text um).corrected
        = (correct_text cfg text um).corrected := by
  rw [correct_text, if_neg h]
  dsimp only
  split
  · next c heq => exact ⟨rfl, modelStage_stripped cfg _ um c heq⟩
  · split
    · exact ⟨rfl, ruleStageFormat_stripped _⟩
    · exact ⟨rfl, pyStrip_idem _⟩

/-- Witness for C10 at an input with surrounding whitespace. -/
theorem C10_input_normalization_witness :
    (correct_text cfgFallback (chars ("  hi there  ")) true).original
        = pyStrip (chars ("  hi there  "))
      ∧ pyStrip (correct_text cfgFallback (chars ("  hi there  ")) true).corrected
        = (correct_text cfgFallback (chars ("  hi there  ")) true).corrected :=
  C10_input_normalization cfgFallback (chars ("  hi there  ")) true (by decide)
